import Mathlib

set_option autoImplicit false

/-!
Verification of the chat store (`src/store.ts`): a shallow embedding of its
data model and state-manipulation functions, with theorems checking the
natural-language specification against them.

Conventions of the embedding:
* JS objects used as string- or timestamp-keyed mappings are association
  lists; property access is first-binding lookup (`alookup`), assignment is
  in-place replacement (`aset`).  String-encoded numeric timestamps are
  `Nat` (the source always compares them through numeric coercion `+ts`).
* An optional / possibly-`undefined` JS value is an `Option`.
* A JS function that would throw a `TypeError` (reading a property of
  `undefined`) is embedded in `Option`: `none` models the thrown error.
-/

namespace VSCodeChat

/-- Modelled from the spec: channel kinds (`interfaces.ts` is not among the
sources; §3 lists `type ∈ {channel, group, direct-message}`). -/
inductive ChannelType
  | channel
  | group
  | im
deriving DecidableEq

/-- Modelled from the spec: a channel record (§3). `readTimestamp` and
`unreadCount` are optional. -/
structure Channel where
  id : String
  name : String
  type : ChannelType
  readTimestamp : Option Nat
  unreadCount : Option Nat
deriving DecidableEq

/-- Modelled from the spec: a reaction (§3): `name`, `count`, `userIds`.
`count` is a JS number that the code decrements, hence `Int`. -/
structure Reaction where
  name : String
  userIds : List String
  count : Int
deriving DecidableEq

/-- Modelled from the spec: a thread reply (§3). -/
structure MessageReply where
  timestamp : Nat
  userId : String
  text : String
deriving DecidableEq

/-- Modelled from the spec: a message (§3): keyed by timestamp within a
channel, holds `userId`, content, `reactions`, `replies`. -/
structure Message where
  userId : String
  text : String
  reactions : List Reaction
  replies : List (Nat × MessageReply)
deriving DecidableEq

/-- Modelled from the spec: a user (§3): `id`, `name`, `isOnline` (boolean or
unknown, i.e. `undefined` for providers without presence). -/
structure User where
  id : String
  name : String
  isOnline : Option Bool
deriving DecidableEq

/-- Modelled from the spec: the current-user record (§3): identity plus
`currentTeamId`; `store.ts` also reads an `id` and writes a `provider`. -/
structure CurrentUser where
  id : String
  name : String
  provider : String
  currentTeamId : Option String
deriving DecidableEq

/-- Modelled from the spec: user preferences (§3): `mutedChannels`, read
defensively by the code (`!!mutedChannels`), hence optional. -/
structure UserPreferences where
  mutedChannels : Option (List String)
deriving DecidableEq

/-- Per-channel message mapping: timestamp → message. -/
abbrev ChannelMessages := List (Nat × Message)

/-- An incoming message payload: a timestamp bound to `none` is the JS
`undefined` "deleted" sentinel. -/
abbrev IncomingMessages := List (Nat × Option Message)

/-- The store's message state: channel id → per-channel mapping. -/
abbrev Messages := List (String × ChannelMessages)

/-- The store's user collection: user id → user. -/
abbrev Users := List (String × User)

/-- First-binding lookup in an association list (JS object property read). -/
def alookup {α β : Type} [DecidableEq α] (k : α) : List (α × β) → Option β
  | [] => none
  | e :: rest => if e.1 = k then some e.2 else alookup k rest

/-- Key set membership of an association list (JS `key in obj`). -/
def akeys {α β : Type} (l : List (α × β)) : List α :=
  l.map Prod.fst

/-- In-place update of every binding of `k` (JS `obj[k] = v`), appending the
binding when the key is absent. -/
def aset {α β : Type} [DecidableEq α] (k : α) (v : β) (l : List (α × β)) :
    List (α × β) :=
  if (alookup k l).isSome then
    l.map (fun e => if e.1 = k then (e.1, v) else e)
  else
    l ++ [(k, v)]

/-- `isChannelMuted` (store.ts:213-216): `!!mutedChannels &&
mutedChannels.indexOf(channelId) >= 0`. -/
def isChannelMuted (prefs : UserPreferences) (channelId : String) : Bool :=
  match prefs.mutedChannels with
  | some muted => muted.contains channelId
  | none => false

/-- The filter callback's timestamp test in `getUnreadCount`
(store.ts:304): `!!readTimestamp ? +ts > +readTimestamp : false`. -/
def isNewTimestamp (readTimestamp : Option Nat) (ts : Nat) : Bool :=
  match readTimestamp with
  | some rt => decide (ts > rt)
  | none => false

/-- The `Object.keys(messages).filter(...)` pass of `getUnreadCount`
(store.ts:302-306), in the `Option` monad: each callback invocation reads
`this.currentUserInfo.id`, which throws (`none`) when no current user is
recorded; an empty mapping never invokes the callback. -/
def unreadFilter (currentUserInfo : Option CurrentUser)
    (readTimestamp : Option Nat) : ChannelMessages → Option ChannelMessages
  | [] => some []
  | e :: rest =>
    match currentUserInfo with
    | none => none
    | some cu =>
      let isDifferentUser : Bool := e.2.userId != cu.id
      let keep : Bool := isDifferentUser && isNewTimestamp readTimestamp e.1
      match unreadFilter currentUserInfo readTimestamp rest with
      | none => none
      | some tail => some (if keep then e :: tail else tail)

/-- `getUnreadCount` (store.ts:293-308).  `none` models the `TypeError`
thrown when the filter callback dereferences an undefined
`currentUserInfo`; the final line is `unreadCount ? unreadCount :
unreadMessages.length`, a JS truthiness test (0 and `undefined` both fall
through to the counted length). -/
def getUnreadCount (prefs : UserPreferences) (currentUserInfo : Option CurrentUser)
    (messages : Messages) (channel : Channel) : Option Nat :=
  if isChannelMuted prefs channel.id then
    some 0
  else
    let channelMessages := (alookup channel.id messages).getD []
    match unreadFilter currentUserInfo channel.readTimestamp channelMessages with
    | none => none
    | some unreadMessages =>
      some (match channel.unreadCount with
        | some n => if n = 0 then unreadMessages.length else n
        | none => unreadMessages.length)

/-- The spec's reference definition of `unreadCount(channel)` (§4.4),
written from the spec's words: 0 when muted; a provider-reported
`unreadCount` is used verbatim whenever present; otherwise count messages
from other authors with timestamp strictly greater than `readTimestamp`
(no `readTimestamp` ⇒ nothing unread). -/
def spec_unreadCount (prefs : UserPreferences) (currentUser : CurrentUser)
    (messages : Messages) (channel : Channel) : Nat :=
  if isChannelMuted prefs channel.id then
    0
  else
    match channel.unreadCount with
    | some n => n
    | none =>
      let channelMessages := (alookup channel.id messages).getD []
      (channelMessages.filter (fun e =>
        (e.2.userId != currentUser.id) && isNewTimestamp channel.readTimestamp e.1)).length

/-- The per-entry effect of the spread `{...old, ...new}` on an existing
binding: a key also bound by the payload takes the payload's value. -/
def updEntry (incoming : IncomingMessages) (e : Nat × Message) :
    Nat × Option Message :=
  match alookup e.1 incoming with
  | some v => (e.1, v)
  | none => (e.1, some e.2)

/-- The deletion pass of `updateMessages` (store.ts:537-542) on one binding:
a binding whose value is the `undefined` sentinel is dropped. -/
def keepEntry (e : Nat × Option Message) : Option (Nat × Message) :=
  e.2.map (fun m => (e.1, m))

/-- The merge step of `updateMessages` (store.ts:533-543): spread the new
per-timestamp mapping over the existing one (`{...old, ...new}`: existing
keys are updated in place, fresh keys are appended in payload order), then
delete every binding whose value is `undefined`. -/
def mergeChannelMessages (old : ChannelMessages) (incoming : IncomingMessages) :
    ChannelMessages :=
  (old.map (updEntry incoming) ++
      incoming.filter (fun e => (alookup e.1 old).isNone)).filterMap keepEntry

/-- The state transformation of `updateMessages` (store.ts:533-557) on the
message store (the trailing user-backfill and UI refresh do not touch
`this.messages`). -/
def updateMessages (messages : Messages) (channelId : String)
    (newMessages : IncomingMessages) : Messages :=
  aset channelId
    (mergeChannelMessages ((alookup channelId messages).getD []) newMessages)
    messages

/-- The reaction-list rewrite of `addReaction` (store.ts:634-654): when a
reaction with the name exists, every same-named entry is replaced by a copy
of the first such entry (`existing`) with `count + 1` and the user id
appended; otherwise a fresh reaction `{name, userIds:[userId], count:1}` is
appended. -/
def bumpReaction (existing : Reaction) (userId : String) : Reaction :=
  { name := existing.name
    userIds := existing.userIds ++ [userId]
    count := existing.count + 1 }

/-- The reaction-list rewrite of `addReaction`, continued: map over the
list, replacing every same-named entry by the bumped copy of the first
match; append a fresh `{name, userIds:[userId], count:1}` when none
matches. -/
def addReactionList (reactions : List Reaction) (userId reactionName : String) :
    List Reaction :=
  match reactions.find? (fun r => r.name == reactionName) with
  | some existing =>
    reactions.map (fun r =>
      if r.name == reactionName then bumpReaction existing userId else r)
  | none =>
    reactions ++ [{ name := reactionName, userIds := [userId], count := 1 }]

/-- The reaction-list rewrite of `removeReaction` (store.ts:678-691): every
same-named reaction is decremented and stripped of the user id, then every
reaction whose count is not `> 0` is dropped. -/
def decReaction (userId : String) (r : Reaction) : Reaction :=
  { name := r.name
    userIds := r.userIds.filter (fun u => u ≠ userId)
    count := r.count - 1 }

/-- The reaction-list rewrite of `removeReaction`, continued: decrement and
strip the user id from every same-named reaction, then drop every reaction
whose count is not `> 0`. -/
def removeReactionList (reactions : List Reaction) (userId reactionName : String) :
    List Reaction :=
  (reactions.map (fun r =>
    if r.name == reactionName then decReaction userId r else r)).filter
    (fun r => r.count > 0)

/-- `addReaction` (store.ts:623-665) as a transformation of the message
store: a silent no-op when the channel id or the message timestamp is
untracked; otherwise the rewritten message is pushed through
`updateMessages`. -/
def addReaction (messages : Messages) (channelId : String) (msgTimestamp : Nat)
    (userId reactionName : String) : Messages :=
  match alookup channelId messages with
  | none => messages
  | some channelMessages =>
    match alookup msgTimestamp channelMessages with
    | none => messages
    | some message =>
      let newMessage :=
        { message with reactions := addReactionList message.reactions userId reactionName }
      updateMessages messages channelId [(msgTimestamp, some newMessage)]

/-- `removeReaction` (store.ts:667-702) as a transformation of the message
store. -/
def removeReaction (messages : Messages) (channelId : String) (msgTimestamp : Nat)
    (userId reactionName : String) : Messages :=
  match alookup channelId messages with
  | none => messages
  | some channelMessages =>
    match alookup msgTimestamp channelMessages with
    | none => messages
    | some message =>
      let newMessage :=
        { message with reactions := removeReactionList message.reactions userId reactionName }
      updateMessages messages channelId [(msgTimestamp, some newMessage)]

/-- `updateMessageReply` (store.ts:716-738): the reply is dropped when the
parent message is untracked; otherwise it is upserted into the parent's
reply mapping by its own timestamp. -/
def updateMessageReply (messages : Messages) (parentTimestamp : Nat)
    (channelId : String) (reply : MessageReply) : Messages :=
  let channelMessages := (alookup channelId messages).getD []
  match alookup parentTimestamp channelMessages with
  | none => messages
  | some message =>
    let replies := aset reply.timestamp reply message.replies
    updateMessages messages channelId
      [(parentTimestamp, some { message with replies })]

/-- `STORAGE_SIZE_LIMIT` (store.ts:45). -/
def STORAGE_SIZE_LIMIT : Nat := 100

/-- `updateUsers` (store.ts:354-360): the in-memory collection is replaced
unconditionally; the persistence `set` for the users key runs only when
`Object.keys(this.users).length <= STORAGE_SIZE_LIMIT`.  The pair's second
component records whether that call was made. -/
def updateUsers (users : Users) : Users × Bool :=
  (users, decide ((akeys users).length ≤ STORAGE_SIZE_LIMIT))

/-- `updateChannels` (store.ts:370-376): same shape for the channel
collection (`this.channels.length <= STORAGE_SIZE_LIMIT`). -/
def updateChannels (channels : List Channel) : List Channel × Bool :=
  (channels, decide (channels.length ≤ STORAGE_SIZE_LIMIT))

/-- The channel-field spread `{...channel, ...newChannel}` of
`updateChannel` (store.ts:386-389): the mandatory fields always come from
the new record; an optional field present on the new record wins, an absent
one leaves the old value. -/
def mergeChannel (old new : Channel) : Channel :=
  { id := new.id
    name := new.name
    type := new.type
    readTimestamp := new.readTimestamp.orElse (fun _ => old.readTimestamp)
    unreadCount := new.unreadCount.orElse (fun _ => old.unreadCount) }

/-- The per-entry effect of `updateChannel`'s map (store.ts:381-393): an
entry with the new channel's id is merged, every other entry is kept. -/
def upsertChannel (newChannel : Channel) (c : Channel) : Channel :=
  if c.id == newChannel.id then mergeChannel c newChannel else c

/-- `updateChannel` (store.ts:378-401) restricted to its effect on the
channel collection: upsert by `id`, merging over every matching entry in
place, appending when no entry matches. -/
def updateChannel (channels : List Channel) (newChannel : Channel) :
    List Channel :=
  let found := channels.any (fun c => c.id == newChannel.id)
  let updatedChannels := channels.map (upsertChannel newChannel)
  if found then updatedChannels else updatedChannels ++ [newChannel]

/-- A user collection of `n` distinct entries, for the persistence-cap
scenario (§8: 150 entries). -/
def sampleUsers (n : Nat) : Users :=
  (List.range n).map (fun i => (toString i, ⟨toString i, "user", none⟩))

/-- `updateCurrentUser` (store.ts:501-523) restricted to its effect on
`currentUserInfo`: resetting on `undefined`; otherwise the previously known
`currentTeamId` is carried over unless the new record's own `currentTeamId`
is truthy (a JS string is truthy iff non-empty). -/
def updateCurrentUser (old : Option CurrentUser) (userInfo : Option CurrentUser) :
    Option CurrentUser :=
  match userInfo with
  | none => none
  | some ui =>
    let carried : Option String :=
      match old with
      | some o => o.currentTeamId
      | none => none
    let currentTeamId : Option String :=
      match ui.currentTeamId with
      | some t => if t ≠ "" then some t else carried
      | none => carried
    some { ui with currentTeamId }

/-- `updateCurrentWorkspace` (store.ts:525-531): overwrite `currentTeamId`
with the team's id through `updateCurrentUser`.  When no current user is
recorded the JS spread of `undefined` yields a record with only
`currentTeamId`; that degenerate case is not needed by any claim, so the
embedding takes the recorded current user as given. -/
def updateCurrentWorkspace (old : CurrentUser) (teamId : String) :
    Option CurrentUser :=
  updateCurrentUser (some old) (some { old with currentTeamId := some teamId })

/-- `shouldFetchNew` (store.ts:455-464): `true` when no fetch timestamp
exists or more than 15 minutes (in ms) have elapsed. -/
def shouldFetchNew (now : Int) (lastFetchedAt : Option Int) : Bool :=
  match lastFetchedAt with
  | none => true
  | some t => decide (now - t > 15 * 60 * 1000)

/-- The observable outcome of one of the promise-returning getters: the
value the returned promise resolves to, whether a fire-and-forget
background fetch was started, and whether the caller blocks on a fresh
provider fetch. -/
structure FetchOutcome (α : Type) where
  resolved : α
  backgroundFetch : Bool
  blockingFetch : Bool
deriving DecidableEq

/-- `getUsersPromise` (store.ts:466-479): a non-empty cached collection is
resolved immediately (kicking off `fetchUsers()` un-awaited when stale);
an empty one defers to `fetchUsers()`, whose promise resolves to the
provider's payload `fetchedUsers`. -/
def getUsersPromise (users : Users) (usersFetchedAt : Option Int) (now : Int)
    (fetchedUsers : Users) : FetchOutcome Users :=
  if (akeys users).length ≠ 0 then
    { resolved := users
      backgroundFetch := shouldFetchNew now usersFetchedAt
      blockingFetch := false }
  else
    { resolved := fetchedUsers, backgroundFetch := false, blockingFetch := true }

/-- `getChannelsPromise` (store.ts:481-491): the guard is `!!this.channels`
— definedness of the channel array (an empty array is truthy), not
non-emptiness. -/
def getChannelsPromise (channels : Option (List Channel))
    (channelsFetchedAt : Option Int) (now : Int)
    (fetchedChannels : List Channel) : FetchOutcome (List Channel) :=
  match channels with
  | some cs =>
    { resolved := cs
      backgroundFetch := shouldFetchNew now channelsFetchedAt
      blockingFetch := false }
  | none =>
    { resolved := fetchedChannels, backgroundFetch := false, blockingFetch := true }

/-- Modelled from the spec: the per-channel UI row `ChannelLabel`
(store.ts:249-254 constructs `{channel, unread, label, isOnline}`). -/
structure ChannelLabel where
  channel : Channel
  unread : Nat
  label : String
  isOnline : Option Bool
deriving DecidableEq

/-- The direct-message online-status shim of `getChannelLabels`
(store.ts:225-237): the first user whose name matches the channel name with
or without a leading `@`; when none matches the label keeps the initial
`false`. -/
def resolveIsOnline (users : Users) (channel : Channel) : Option Bool :=
  if channel.type = ChannelType.im then
    match users.find? (fun e =>
        ("@" ++ e.2.name == channel.name) || (e.2.name == channel.name)) with
    | some e => e.2.isOnline
    | none => some false
  else
    some false

/-- The label string of `getChannelLabels` (store.ts:239-247). -/
def channelLabelText (name : String) (unread : Nat) (isMuted : Bool) : String :=
  if unread > 0 then
    s!"{name} ({unread} new)"
  else if isMuted then
    s!"{name} (muted)"
  else
    name

/-- `getChannelLabels` (store.ts:218-256): one row per channel, in order;
`none` models the `TypeError` its `getUnreadCount` call throws when no
current user is recorded. -/
def getChannelLabels (prefs : UserPreferences) (currentUserInfo : Option CurrentUser)
    (users : Users) (messages : Messages) :
    List Channel → Option (List ChannelLabel)
  | [] => some []
  | channel :: rest =>
    match getUnreadCount prefs currentUserInfo messages channel with
    | none => none
    | some unread =>
      match getChannelLabels prefs currentUserInfo users messages rest with
      | none => none
      | some tail =>
        some ({ channel
                unread
                label := channelLabelText channel.name unread
                  (isChannelMuted prefs channel.id)
                isOnline := resolveIsOnline users channel } :: tail)

/-- `updateUnreadCount` (store.ts:337-341): the total pushed to the status
item, `unreads.reduce((a, b) => a + b, 0)` over `getUnreadCount` of every
channel; `none` models the propagated `TypeError`. -/
def updateUnreadCount (prefs : UserPreferences) (currentUserInfo : Option CurrentUser)
    (messages : Messages) : List Channel → Option Nat
  | [] => some 0
  | channel :: rest =>
    match getUnreadCount prefs currentUserInfo messages channel with
    | none => none
    | some n =>
      match updateUnreadCount prefs currentUserInfo messages rest with
      | none => none
      | some total => some (n + total)

/-! ### Helper lemmas about association lists -/

theorem alookup_nil {α β : Type} [DecidableEq α] (k : α) :
    alookup k ([] : List (α × β)) = none := rfl

theorem alookup_cons {α β : Type} [DecidableEq α] (k : α) (e : α × β)
    (l : List (α × β)) :
    alookup k (e :: l) = if e.1 = k then some e.2 else alookup k l := rfl

theorem mem_of_alookup {α β : Type} [DecidableEq α] {k : α} {v : β}
    {l : List (α × β)} (h : alookup k l = some v) : (k, v) ∈ l := by
  induction l with
  | nil => simp [alookup] at h
  | cons e rest ih =>
    rw [alookup_cons] at h
    by_cases he : e.1 = k
    · simp [he] at h
      subst he
      subst h
      simp
    · simp [he] at h
      exact List.mem_cons_of_mem _ (ih h)

theorem alookup_of_mem_nodup {α β : Type} [DecidableEq α] {k : α} {v : β}
    {l : List (α × β)} (hm : (k, v) ∈ l) (hn : (l.map Prod.fst).Nodup) :
    alookup k l = some v := by
  induction l with
  | nil => simp at hm
  | cons e rest ih =>
    rw [alookup_cons]
    simp only [List.map_cons, List.nodup_cons] at hn
    rcases List.mem_cons.mp hm with h | h
    · subst h
      simp
    · have hne : e.1 ≠ k := by
        intro hk
        exact hn.1 (hk ▸ List.mem_map_of_mem Prod.fst h)
      simp [hne]
      exact ih h hn.2

theorem alookup_isSome_iff {α β : Type} [DecidableEq α] (k : α)
    (l : List (α × β)) :
    (alookup k l).isSome = true ↔ k ∈ l.map Prod.fst := by
  induction l with
  | nil => simp [alookup]
  | cons e rest ih =>
    rw [alookup_cons]
    by_cases he : e.1 = k
    · simp [he]
    · simp [he, ih, Ne.symm he]

theorem alookup_eq_none_forall {α β : Type} [DecidableEq α] {k : α}
    {l : List (α × β)} (h : alookup k l = none) : ∀ e ∈ l, e.1 ≠ k := by
  intro e he hk
  have : k ∈ l.map Prod.fst := hk ▸ List.mem_map_of_mem Prod.fst he
  have := (alookup_isSome_iff k l).mpr this
  rw [h] at this
  simp at this

theorem alookup_append_right_of_none {α β : Type} [DecidableEq α] {k : α}
    {l : List (α × β)} (h : alookup k l = none) (l2 : List (α × β)) :
    alookup k (l ++ l2) = alookup k l2 := by
  induction l with
  | nil => simp
  | cons e rest ih =>
    rw [alookup_cons] at h
    by_cases he : e.1 = k
    · simp [he] at h
    · simp only [he, if_false] at h
      simpa [List.cons_append, alookup_cons, he] using ih h

theorem alookup_aset {α β : Type} [DecidableEq α] (k : α) (v : β)
    (l : List (α × β)) : alookup k (aset k v l) = some v := by
  unfold aset
  by_cases h : (alookup k l).isSome
  · simp only [h, if_true]
    induction l with
    | nil => simp [alookup] at h
    | cons e rest ih =>
      by_cases he : e.1 = k
      · simp [alookup_cons, he]
      · rw [alookup_cons] at h
        simp only [he, if_false] at h
        simpa [alookup_cons, he] using ih h
  · rw [if_neg h]
    have hnone : alookup k l = none := by
      cases hl : alookup k l
      · rfl
      · rw [hl] at h
        simp at h
    rw [alookup_append_right_of_none hnone]
    simp [alookup]

theorem aset_aset {α β : Type} [DecidableEq α] (k : α) (v : β)
    (l : List (α × β)) : aset k v (aset k v l) = aset k v l := by
  have hsome : (alookup k (aset k v l)).isSome := by
    rw [alookup_aset]
    rfl
  conv_lhs => rw [aset]
  simp only [hsome, if_true]
  unfold aset
  by_cases h : (alookup k l).isSome
  · simp only [h, if_true, List.map_map]
    apply List.map_congr_left
    intro e _
    by_cases he : e.1 = k <;> simp [Function.comp, he]
  · simp only [h, if_false, List.map_append]
    have hnone : alookup k l = none := by
      cases hl : alookup k l
      · rfl
      · rw [hl] at h
        simp at h
    have : l.map (fun e => if e.1 = k then (e.1, v) else e) = l.map id := by
      apply List.map_congr_left
      intro e he
      have := alookup_eq_none_forall hnone e he
      simp [this]
    simp [this]

/-! ### Helper lemmas about the message merge -/

theorem keepEntry_some {e : Nat × Option Message} {p : Nat × Message}
    (h : keepEntry e = some p) : e = (p.1, some p.2) := by
  obtain ⟨m, hm, heq⟩ := Option.map_eq_some'.mp h
  obtain ⟨k, v⟩ := e
  obtain ⟨pk, pm⟩ := p
  simp at hm heq ⊢
  obtain ⟨h1, h2⟩ := heq
  exact ⟨h1, hm.trans (by rw [h2])⟩

theorem mem_merge_cases {old : ChannelMessages} {incoming : IncomingMessages}
    (hn : (incoming.map Prod.fst).Nodup) {k : Nat} {m : Message}
    (h : (k, m) ∈ mergeChannelMessages old incoming) :
    alookup k incoming = some (some m) ∨
      (alookup k incoming = none ∧ (k, m) ∈ old) := by
  unfold mergeChannelMessages at h
  simp only [List.mem_filterMap, List.mem_append] at h
  obtain ⟨e, he, hkeep⟩ := h
  have he2 : e = (k, some m) := keepEntry_some hkeep
  subst he2
  rcases he with he | he
  · obtain ⟨o, ho, hupd⟩ := List.mem_map.mp he
    unfold updEntry at hupd
    cases hl : alookup o.1 incoming with
    | some v =>
      rw [hl] at hupd
      have hk : o.1 = k := congrArg Prod.fst hupd
      have hv : v = some m := congrArg Prod.snd hupd
      left
      rw [← hk, hl, hv]
    | none =>
      rw [hl] at hupd
      have hk : o.1 = k := congrArg Prod.fst hupd
      have hv : some o.2 = some m := congrArg Prod.snd hupd
      right
      refine ⟨by rw [← hk, hl], ?_⟩
      have : o = (k, m) := by
        obtain ⟨o1, o2⟩ := o
        simp at hk hv
        simp [hk, hv]
      exact this ▸ ho
  · have hmem : (k, some m) ∈ incoming := (List.mem_filter.mp he).1
    left
    exact alookup_of_mem_nodup hmem hn

theorem mem_merge_of_incoming {old : ChannelMessages} {incoming : IncomingMessages}
    {k : Nat} {m : Message} (h : alookup k incoming = some (some m)) :
    (k, m) ∈ mergeChannelMessages old incoming := by
  unfold mergeChannelMessages
  simp only [List.mem_filterMap, List.mem_append]
  refine ⟨(k, some m), ?_, rfl⟩
  cases hl : alookup k old with
  | some w =>
    left
    have hw : (k, w) ∈ old := mem_of_alookup hl
    have : updEntry incoming (k, w) = (k, some m) := by
      unfold updEntry
      simp only
      rw [h]
    exact this ▸ List.mem_map_of_mem (updEntry incoming) hw
  | none =>
    right
    refine List.mem_filter.mpr ⟨mem_of_alookup h, ?_⟩
    simp [hl]

theorem alookup_merge_of_deleted {old : ChannelMessages}
    {incoming : IncomingMessages} (hn : (incoming.map Prod.fst).Nodup)
    {ts : Nat} (h : alookup ts incoming = some none) :
    alookup ts (mergeChannelMessages old incoming) = none := by
  cases hm : alookup ts (mergeChannelMessages old incoming) with
  | none => rfl
  | some m =>
    rcases mem_merge_cases hn (mem_of_alookup hm) with h1 | ⟨h1, _⟩
    · rw [h] at h1
      simp at h1
    · rw [h] at h1
      simp at h1

theorem alookup_merge_of_defined {old : ChannelMessages}
    {incoming : IncomingMessages} (hn : (incoming.map Prod.fst).Nodup)
    {ts : Nat} {m : Message} (h : alookup ts incoming = some (some m)) :
    alookup ts (mergeChannelMessages old incoming) = some m := by
  have hmem : (ts, m) ∈ mergeChannelMessages old incoming :=
    mem_merge_of_incoming h
  have hsome : (alookup ts (mergeChannelMessages old incoming)).isSome = true :=
    (alookup_isSome_iff _ _).mpr (List.mem_map_of_mem Prod.fst hmem)
  cases hl : alookup ts (mergeChannelMessages old incoming) with
  | none =>
    rw [hl] at hsome
    simp at hsome
  | some m' =>
    rcases mem_merge_cases hn (mem_of_alookup hl) with h1 | ⟨h1, _⟩
    · rw [h] at h1
      simp at h1
      rw [h1]
    · rw [h] at h1
      simp at h1

theorem updEntry_of_none {incoming : IncomingMessages} {e : Nat × Message}
    (h : alookup e.1 incoming = none) : updEntry incoming e = (e.1, some e.2) := by
  unfold updEntry
  rw [h]

theorem updEntry_of_some {incoming : IncomingMessages} {e : Nat × Message}
    {v : Option Message} (h : alookup e.1 incoming = some v) :
    updEntry incoming e = (e.1, v) := by
  unfold updEntry
  rw [h]

theorem filterMap_upd_self {incoming : IncomingMessages} {X : ChannelMessages}
    (h : ∀ e ∈ X, alookup e.1 incoming = none ∨
      alookup e.1 incoming = some (some e.2)) :
    (X.map (updEntry incoming)).filterMap keepEntry = X := by
  induction X with
  | nil => rfl
  | cons e rest ih =>
    have hrest := ih (fun x hx => h x (List.mem_cons_of_mem e hx))
    rcases h e (List.mem_cons_self e rest) with h1 | h1
    · rw [List.map_cons, updEntry_of_none h1, List.filterMap_cons]
      have : keepEntry (e.1, some e.2) = some (e.1, e.2) := rfl
      rw [this, hrest]
    · rw [List.map_cons, updEntry_of_some h1, List.filterMap_cons]
      have : keepEntry (e.1, some e.2) = some (e.1, e.2) := rfl
      rw [this, hrest]

theorem merge_merge {old : ChannelMessages} {incoming : IncomingMessages}
    (hn : (incoming.map Prod.fst).Nodup) :
    mergeChannelMessages (mergeChannelMessages old incoming) incoming =
      mergeChannelMessages old incoming := by
  have h1 : ((mergeChannelMessages old incoming).map
      (updEntry incoming)).filterMap keepEntry = mergeChannelMessages old incoming := by
    apply filterMap_upd_self
    intro e he
    rcases mem_merge_cases hn (show (e.1, e.2) ∈ _ from he) with h | ⟨h, _⟩
    · right
      exact h
    · left
      exact h
  have h2 : (incoming.filter
      (fun e => (alookup e.1 (mergeChannelMessages old incoming)).isNone)).filterMap
        keepEntry = ([] : ChannelMessages) := by
    rw [List.filterMap_eq_nil_iff]
    intro e he
    have hmem := (List.mem_filter.mp he).1
    have hnone := (List.mem_filter.mp he).2
    cases hv : e.2 with
    | none => simp [keepEntry, hv]
    | some m =>
      exfalso
      have hpair : (e.1, some m) ∈ incoming := by
        have : e = (e.1, some m) := by
          obtain ⟨k, v⟩ := e
          simp at hv
          simp [hv]
        exact this ▸ hmem
      have := @alookup_merge_of_defined old incoming hn e.1 m
        (alookup_of_mem_nodup hpair hn)
      rw [this] at hnone
      simp at hnone
  have key : mergeChannelMessages (mergeChannelMessages old incoming) incoming =
      ((mergeChannelMessages old incoming).map (updEntry incoming) ++
        incoming.filter
          (fun e => (alookup e.1 (mergeChannelMessages old incoming)).isNone)).filterMap
        keepEntry := rfl
  rw [key, List.filterMap_append, h1, h2, List.append_nil]

/-! ### Helper lemmas about the unread computation -/

theorem unreadFilter_eq_filter (cu : CurrentUser) (rt : Option Nat)
    (l : ChannelMessages) :
    unreadFilter (some cu) rt l =
      some (l.filter (fun e => (e.2.userId != cu.id) && isNewTimestamp rt e.1)) := by
  induction l with
  | nil => rfl
  | cons e rest ih => simp [unreadFilter, ih, List.filter_cons]

theorem getUnreadCount_isSome (prefs : UserPreferences) (cu : CurrentUser)
    (messages : Messages) (channel : Channel) :
    (getUnreadCount prefs (some cu) messages channel).isSome = true := by
  simp only [getUnreadCount]
  by_cases hm : isChannelMuted prefs channel.id = true
  · simp [hm]
  · rw [if_neg hm, unreadFilter_eq_filter]
    simp

/-! ### Helper lemmas about the channel upsert -/

theorem mergeChannel_id (x c : Channel) : (mergeChannel x c).id = c.id := rfl

theorem mergeChannel_self (c : Channel) : mergeChannel c c = c := by
  obtain ⟨i, n, t, r, u⟩ := c
  unfold mergeChannel
  cases r <;> cases u <;> rfl

theorem mergeChannel_idem (x c : Channel) :
    mergeChannel (mergeChannel x c) c = mergeChannel x c := by
  unfold mergeChannel
  cases hr : c.readTimestamp <;> cases hu : c.unreadCount <;> rfl

theorem upsertChannel_idem (c x : Channel) :
    upsertChannel c (upsertChannel c x) = upsertChannel c x := by
  unfold upsertChannel
  by_cases h : (x.id == c.id) = true
  · simp only [h, if_true, mergeChannel_id]
    simp [mergeChannel_idem]
  · simp only [h]
    simp [Bool.of_not_eq_true h]

theorem any_map_upsert (channels : List Channel) (c : Channel) :
    (channels.map (upsertChannel c)).any (fun x => x.id == c.id) =
      channels.any (fun x => x.id == c.id) := by
  rw [List.any_map]
  have hfun : ((fun x : Channel => x.id == c.id) ∘ upsertChannel c) =
      (fun x : Channel => x.id == c.id) := by
    funext x
    unfold upsertChannel
    by_cases h : (x.id == c.id) = true
    · simp [Function.comp, h, mergeChannel_id]
    · simp [Function.comp, h]
  rw [hfun]

theorem updateChannel_found (cs : List Channel) (c : Channel)
    (h : cs.any (fun x => x.id == c.id) = true) :
    updateChannel cs c = cs.map (upsertChannel c) := by
  simp only [updateChannel, h, if_true]

theorem map_upsert_of_not_found (cs : List Channel) (c : Channel)
    (h : cs.any (fun x => x.id == c.id) = false) :
    cs.map (upsertChannel c) = cs := by
  have hall : ∀ x ∈ cs, (x.id == c.id) = false := by
    simpa using List.any_eq_false.mp h
  have : ∀ x ∈ cs, upsertChannel c x = id x := by
    intro x hx
    unfold upsertChannel
    simp [hall x hx]
  rw [List.map_congr_left this, List.map_id]

theorem updateChannel_not_found (cs : List Channel) (c : Channel)
    (h : cs.any (fun x => x.id == c.id) = false) :
    updateChannel cs c = cs ++ [c] := by
  simp only [updateChannel, h, map_upsert_of_not_found cs c h]
  simp

theorem getChannelLabels_isSome (prefs : UserPreferences) (cu : CurrentUser)
    (users : Users) (messages : Messages) (channels : List Channel) :
    (getChannelLabels prefs (some cu) users messages channels).isSome = true := by
  induction channels with
  | nil => rfl
  | cons ch rest ih =>
    rw [getChannelLabels]
    cases hu : getUnreadCount prefs (some cu) messages ch with
    | none =>
      have := getUnreadCount_isSome prefs cu messages ch
      rw [hu] at this
      simp at this
    | some n =>
      cases hl : getChannelLabels prefs (some cu) users messages rest with
      | none =>
        rw [hl] at ih
        simp at ih
      | some tail => rfl

theorem updateUnreadCount_isSome (prefs : UserPreferences) (cu : CurrentUser)
    (messages : Messages) (channels : List Channel) :
    (updateUnreadCount prefs (some cu) messages channels).isSome = true := by
  induction channels with
  | nil => rfl
  | cons ch rest ih =>
    rw [updateUnreadCount]
    cases hu : getUnreadCount prefs (some cu) messages ch with
    | none =>
      have := getUnreadCount_isSome prefs cu messages ch
      rw [hu] at this
      simp at this
    | some n =>
      cases hl : updateUnreadCount prefs (some cu) messages rest with
      | none =>
        rw [hl] at ih
        simp at ih
      | some total => rfl

theorem alookup_updateMessages (messages : Messages) (cid : String)
    (incoming : IncomingMessages) (cm : ChannelMessages)
    (hch : alookup cid messages = some cm) :
    alookup cid (updateMessages messages cid incoming) =
      some (mergeChannelMessages cm incoming) := by
  simp only [updateMessages, hch, Option.getD_some]
  exact alookup_aset _ _ _

/-! ### Helper lemmas about reactions -/

theorem remove_add_reactions (reactions : List Reaction)
    (userId reactionName : String)
    (h1 : ∀ r ∈ reactions, 0 < r.count)
    (h2 : (reactions.map Reaction.name).Nodup)
    (h3 : ∀ r ∈ reactions, r.name = reactionName → userId ∉ r.userIds) :
    removeReactionList (addReactionList reactions userId reactionName) userId
      reactionName = reactions := by
  unfold addReactionList
  cases hf : reactions.find? (fun r => r.name == reactionName) with
  | none =>
    have hnone : ∀ r ∈ reactions, (r.name == reactionName) = false := by
      intro r hr
      have := List.find?_eq_none.mp hf r hr
      simpa using this
    unfold removeReactionList
    rw [List.map_append, List.filter_append]
    have hmapold : reactions.map (fun r =>
        if r.name == reactionName then decReaction userId r else r) = reactions := by
      have : ∀ r ∈ reactions, (fun r =>
          if r.name == reactionName then decReaction userId r else r) r = id r := by
        intro r hr
        simp [hnone r hr]
      rw [List.map_congr_left this, List.map_id]
    rw [hmapold]
    have hfilterold : reactions.filter (fun r => r.count > 0) = reactions := by
      apply List.filter_eq_self.mpr
      intro r hr
      simpa using h1 r hr
    rw [hfilterold]
    have hnew : ([({ name := reactionName, userIds := [userId], count := 1 } :
        Reaction)].map (fun r =>
          if r.name == reactionName then decReaction userId r else r)).filter
        (fun r => r.count > 0) = [] := by
      simp [decReaction]
    rw [hnew, List.append_nil]
  | some existing =>
    have hpmem : existing ∈ reactions := List.mem_of_find?_eq_some hf
    have hpname := List.find?_some hf
    have hname : existing.name = reactionName := by simpa using hpname
    unfold removeReactionList
    rw [List.map_map]
    have hpoint : ∀ r ∈ reactions, ((fun r =>
        if r.name == reactionName then decReaction userId r else r) ∘
        (fun r => if r.name == reactionName then bumpReaction existing userId
          else r)) r = id r := by
      intro r hr
      by_cases hrn : (r.name == reactionName) = true
      · have hreq : r = existing := by
          apply List.inj_on_of_nodup_map h2 hr hpmem
          rw [hname]
          simpa using hrn
        have hbname : ((bumpReaction existing userId).name == reactionName) = true := by
          simpa [bumpReaction] using hpname
        simp only [Function.comp, hrn, if_true, hbname, if_true]
        have huser : existing.userIds.filter (fun u => u ≠ userId) =
            existing.userIds := by
          apply List.filter_eq_self.mpr
          intro u hu
          have := h3 existing hpmem hname
          simp only [decide_eq_true_eq]
          intro heq
          exact this (heq ▸ hu)
        have : decReaction userId (bumpReaction existing userId) = existing := by
          unfold decReaction bumpReaction
          simp only [List.filter_append, huser]
          have hu2 : ([userId].filter (fun u => u ≠ userId)) = [] := by simp
          rw [hu2, List.append_nil]
          have : existing.count + 1 - 1 = existing.count := by omega
          simp [this]
        rw [this, hreq]
        rfl
      · simp only [Function.comp, hrn]
        simp [Bool.of_not_eq_true hrn]
    rw [List.map_congr_left hpoint, List.map_id]
    apply List.filter_eq_self.mpr
    intro r hr
    simpa using h1 r hr

/-! ### Claim theorems -/

/-- C5: an `updateMessages` merge binding a timestamp to the `undefined`
"deleted" sentinel leaves no stored entry for that timestamp, and applying
the same merge a second time yields the same mapping as applying it once.
The `Nodup` hypothesis states that the payload binds each timestamp at most
once, as a JS object literally does. -/
theorem updateMessages_deleted_removed_and_idempotent (messages : Messages)
    (channelId : String) (incoming : IncomingMessages) (ts : Nat)
    (hn : (incoming.map Prod.fst).Nodup)
    (hts : alookup ts incoming = some none) :
    alookup ts ((alookup channelId
        (updateMessages messages channelId incoming)).getD []) = none ∧
    updateMessages (updateMessages messages channelId incoming) channelId
        incoming =
      updateMessages messages channelId incoming := by
  have hch : alookup channelId (updateMessages messages channelId incoming) =
      some (mergeChannelMessages ((alookup channelId messages).getD []) incoming) :=
    alookup_aset _ _ _
  constructor
  · rw [hch]
    simp only [Option.getD_some]
    exact alookup_merge_of_deleted hn hts
  · show aset channelId
      (mergeChannelMessages ((alookup channelId
        (updateMessages messages channelId incoming)).getD []) incoming)
      (updateMessages messages channelId incoming) = _
    rw [hch]
    simp only [Option.getD_some]
    rw [merge_merge hn]
    exact aset_aset _ _ _

/-- C5 (witness). -/
theorem updateMessages_deleted_witness :
    alookup 100 ((alookup "C1" (updateMessages
        [("C1", [(100, ⟨"U2", "hi", [], []⟩)])] "C1" [(100, none)])).getD []) =
      none ∧
    updateMessages (updateMessages [("C1", [(100, ⟨"U2", "hi", [], []⟩)])] "C1"
        [(100, none)]) "C1" [(100, none)] =
      updateMessages [("C1", [(100, ⟨"U2", "hi", [], []⟩)])] "C1" [(100, none)] :=
  updateMessages_deleted_removed_and_idempotent
    [("C1", [(100, ⟨"U2", "hi", [], []⟩)])] "C1" [(100, none)] 100
    (by decide) (by decide)

/-- C10 (counterexample): `getUnreadCount` does not read
`currentUserInfo.id` when an unmuted channel has no cached messages — the
filter callback never runs — so with no current user recorded it still
succeeds (returns 0) instead of failing, refuting "reads
`currentUserInfo.id` unconditionally whenever the channel is not muted
(even when the channel has no messages)" and "only safe under the
precondition that a current user is recorded". -/
theorem getUnreadCount_safe_without_user_on_empty_channel :
    getUnreadCount ⟨none⟩ none []
        ⟨"C1", "general", ChannelType.channel, none, none⟩ = some 0 ∧
    isChannelMuted ⟨none⟩ "C1" = false := by
  decide

/-- C10 (amended): `getUnreadCount` dereferences `currentUserInfo` exactly
when the channel is unmuted and its cached message mapping is non-empty
(then an undefined current user makes it throw); whenever a current user is
recorded it never fails, and neither do `getChannelLabels` and
`updateUnreadCount`, which invoke it for every channel. -/
theorem getUnreadCount_defined_under_current_user (prefs : UserPreferences)
    (cu : CurrentUser) (users : Users) (messages : Messages)
    (channels : List Channel) (channel : Channel) :
    (getUnreadCount prefs (some cu) messages channel).isSome = true ∧
    (getChannelLabels prefs (some cu) users messages channels).isSome = true ∧
    (updateUnreadCount prefs (some cu) messages channels).isSome = true ∧
    (isChannelMuted prefs channel.id = false →
      (alookup channel.id messages).getD [] ≠ [] →
      getUnreadCount prefs none messages channel = none) := by
  refine ⟨getUnreadCount_isSome prefs cu messages channel,
    getChannelLabels_isSome prefs cu users messages channels,
    updateUnreadCount_isSome prefs cu messages channels, ?_⟩
  intro hm hne
  simp only [getUnreadCount]
  rw [if_neg (by simp [hm])]
  cases hc : (alookup channel.id messages).getD [] with
  | nil => exact absurd hc hne
  | cons e rest => rfl

/-- C10 (witness). -/
theorem getUnreadCount_defined_under_current_user_witness :
    (getUnreadCount ⟨none⟩ (some ⟨"U1", "me", "slack", none⟩)
        [("C1", [(100, ⟨"U2", "hi", [], []⟩)])]
        ⟨"C1", "general", ChannelType.channel, none, none⟩).isSome = true ∧
    getUnreadCount ⟨none⟩ none [("C1", [(100, ⟨"U2", "hi", [], []⟩)])]
        ⟨"C1", "general", ChannelType.channel, none, none⟩ = none :=
  ⟨(getUnreadCount_defined_under_current_user ⟨none⟩ ⟨"U1", "me", "slack", none⟩
      [] [("C1", [(100, ⟨"U2", "hi", [], []⟩)])] []
      ⟨"C1", "general", ChannelType.channel, none, none⟩).1,
   (getUnreadCount_defined_under_current_user ⟨none⟩ ⟨"U1", "me", "slack", none⟩
      [] [("C1", [(100, ⟨"U2", "hi", [], []⟩)])] []
      ⟨"C1", "general", ChannelType.channel, none, none⟩).2.2.2
      (by decide) (by decide)⟩

/-- C1 (counterexample): the claim "a provider-reported `unreadCount` is
returned verbatim for every value of the override, including 0" is false:
for a channel with `unreadCount = 0` and one unread message the code
returns the counted fallback (1), not the spec's verbatim 0 — JS `0` is
falsy in `unreadCount ? unreadCount : unreadMessages.length`. -/
theorem zero_override_falls_through :
    getUnreadCount ⟨none⟩ (some ⟨"U1", "me", "slack", none⟩)
        [("C1", [(100, ⟨"U2", "hi", [], []⟩)])]
        ⟨"C1", "general", ChannelType.channel, some 50, some 0⟩ ≠
      some (spec_unreadCount ⟨none⟩ ⟨"U1", "me", "slack", none⟩
        [("C1", [(100, ⟨"U2", "hi", [], []⟩)])]
        ⟨"C1", "general", ChannelType.channel, some 50, some 0⟩) := by
  decide

/-- C1 (amended): `getUnreadCount` equals the spec's reference definition
for every channel whose provider-reported override is not the value 0 (it
is the truthiness test `unreadCount ? ... : ...` that makes a 0 override
fall through to the counted fallback). -/
theorem getUnreadCount_matches_spec_unless_zero_override
    (prefs : UserPreferences) (cu : CurrentUser) (messages : Messages)
    (channel : Channel) (h : channel.unreadCount ≠ some 0) :
    getUnreadCount prefs (some cu) messages channel =
      some (spec_unreadCount prefs cu messages channel) := by
  simp only [getUnreadCount, spec_unreadCount]
  by_cases hm : isChannelMuted prefs channel.id = true
  · simp [hm]
  · rw [if_neg hm, if_neg hm, unreadFilter_eq_filter]
    cases hu : channel.unreadCount with
    | none => rfl
    | some n =>
      have hn : n ≠ 0 := fun h0 => h (by rw [hu, h0])
      simp [hn]

/-- C1 (witness). -/
theorem getUnreadCount_matches_spec_witness :
    getUnreadCount ⟨none⟩ (some ⟨"U1", "me", "slack", none⟩)
        [("C1", [(100, ⟨"U2", "hi", [], []⟩)])]
        ⟨"C1", "general", ChannelType.channel, some 50, none⟩ =
      some (spec_unreadCount ⟨none⟩ ⟨"U1", "me", "slack", none⟩
        [("C1", [(100, ⟨"U2", "hi", [], []⟩)])]
        ⟨"C1", "general", ChannelType.channel, some 50, none⟩) :=
  getUnreadCount_matches_spec_unless_zero_override ⟨none⟩ ⟨"U1", "me", "slack", none⟩
    [("C1", [(100, ⟨"U2", "hi", [], []⟩)])]
    ⟨"C1", "general", ChannelType.channel, some 50, none⟩ (by decide)

/-- C2 (counterexample): in the spec's scenario (channel C1 with no
`readTimestamp`, current user U1, one stored message from U2 at ts 100) the
code returns 0, not the claimed 1: with no `readTimestamp` the fallback
counts nothing as unread. -/
theorem scenario_unread_not_one :
    getUnreadCount ⟨none⟩ (some ⟨"U1", "me", "slack", none⟩)
        [("C1", [(100, ⟨"U2", "hi", [], []⟩)])]
        ⟨"C1", "general", ChannelType.channel, none, none⟩ ≠ some 1 := by
  decide

/-- C2 (amended): in that scenario `getUnreadCount` returns 0 both before
the read marker is set (no `readTimestamp` ⇒ nothing counts as unread) and
after `readTimestamp` is set to 101. -/
theorem scenario_unread_zero_before_and_after_read_marker :
    getUnreadCount ⟨none⟩ (some ⟨"U1", "me", "slack", none⟩)
        [("C1", [(100, ⟨"U2", "hi", [], []⟩)])]
        ⟨"C1", "general", ChannelType.channel, none, none⟩ = some 0 ∧
    getUnreadCount ⟨none⟩ (some ⟨"U1", "me", "slack", none⟩)
        [("C1", [(100, ⟨"U2", "hi", [], []⟩)])]
        ⟨"C1", "general", ChannelType.channel, some 101, none⟩ = some 0 := by
  decide

/-- C3 (counterexample): with an empty-but-defined channel cache
(`this.channels = []`, which is truthy in JS) `getChannelsPromise` resolves
to the empty cache without blocking on a fetch, so "when the cached
collection is empty the caller receives the result of a fresh provider
fetch" fails for channels. -/
theorem getChannelsPromise_empty_cache_resolves_empty :
    (getChannelsPromise (some []) none 0
        [⟨"C1", "general", ChannelType.channel, none, none⟩]).resolved = [] ∧
    (getChannelsPromise (some []) none 0
        [⟨"C1", "general", ChannelType.channel, none, none⟩]).blockingFetch = false ∧
    ([] : List Channel) ≠ [⟨"C1", "general", ChannelType.channel, none, none⟩] := by
  refine ⟨rfl, rfl, by decide⟩

/-- C3 (amended): `getUsersPromise` resolves a non-empty cached collection
immediately (background refetch exactly when stale) and defers to the fetch
result on an empty cache; `getChannelsPromise` resolves the cached array
whenever it is defined — even when empty — and defers to the fetch result
only when the field is undefined. -/
theorem promise_getters_cache_behaviour (e : String × User) (rest : Users)
    (ufa : Option Int) (now : Int) (fu : Users) (cs : List Channel)
    (cfa : Option Int) (fc : List Channel) :
    getUsersPromise (e :: rest) ufa now fu =
      ⟨e :: rest, shouldFetchNew now ufa, false⟩ ∧
    getUsersPromise [] ufa now fu = ⟨fu, false, true⟩ ∧
    getChannelsPromise (some cs) cfa now fc =
      ⟨cs, shouldFetchNew now cfa, false⟩ ∧
    getChannelsPromise none cfa now fc = ⟨fc, false, true⟩ := by
  refine ⟨?_, rfl, rfl, rfl⟩
  simp [getUsersPromise, akeys]

/-- C6: once `currentTeamId` is recorded, a subsequent `updateCurrentUser`
with a non-empty record keeps it unless the new record's own
`currentTeamId` is supplied (truthy); a record lacking one can never reset
it to `undefined`. -/
theorem updateCurrentUser_preserves_currentTeamId (o ui : CurrentUser)
    (tid : String) (h : o.currentTeamId = some tid) :
    ∃ r, updateCurrentUser (some o) (some ui) = some r ∧
      r.currentTeamId.isSome = true ∧
      (ui.currentTeamId = none → r.currentTeamId = some tid) := by
  cases ht : ui.currentTeamId with
  | none =>
    refine ⟨{ ui with currentTeamId := some tid }, ?_, rfl, fun _ => rfl⟩
    simp only [updateCurrentUser, ht, h]
  | some t =>
    by_cases h0 : t = ""
    · refine ⟨{ ui with currentTeamId := some tid }, ?_, rfl, ?_⟩
      · simp only [updateCurrentUser, ht, h, h0]
        simp
      · intro hc
        simp at hc
    · refine ⟨{ ui with currentTeamId := some t }, ?_, rfl, ?_⟩
      · simp only [updateCurrentUser, ht, h]
        simp [h0]
      · intro hc
        simp at hc

/-- C6 (witness). -/
theorem updateCurrentUser_preserves_currentTeamId_witness :
    ∃ r, updateCurrentUser (some ⟨"U1", "me", "discord", some "T1"⟩)
        (some ⟨"U1", "me", "discord", none⟩) = some r ∧
      r.currentTeamId.isSome = true ∧
      ((⟨"U1", "me", "discord", none⟩ : CurrentUser).currentTeamId = none →
        r.currentTeamId = some "T1") :=
  updateCurrentUser_preserves_currentTeamId ⟨"U1", "me", "discord", some "T1"⟩
    ⟨"U1", "me", "discord", none⟩ "T1" rfl

/-- C7: `updateChannel` is idempotent: applying it twice with the same
channel value yields the same collection (hence the same size and content)
as applying it once. -/
theorem updateChannel_idempotent (channels : List Channel) (c : Channel) :
    updateChannel (updateChannel channels c) c = updateChannel channels c := by
  by_cases hf : channels.any (fun x => x.id == c.id) = true
  · rw [updateChannel_found channels c hf]
    have hf2 : (channels.map (upsertChannel c)).any (fun x => x.id == c.id) = true := by
      rw [any_map_upsert]
      exact hf
    rw [updateChannel_found _ c hf2, List.map_map]
    apply List.map_congr_left
    intro x _
    exact upsertChannel_idem c x
  · have hf0 : channels.any (fun x => x.id == c.id) = false := by
      cases h : channels.any (fun x => x.id == c.id)
      · rfl
      · exact absurd h hf
    rw [updateChannel_not_found channels c hf0]
    have hf2 : (channels ++ [c]).any (fun x => x.id == c.id) = true := by
      rw [List.any_append]
      simp
    rw [updateChannel_found _ c hf2, List.map_append,
      map_upsert_of_not_found channels c hf0]
    have h2 : upsertChannel c c = c := by
      unfold upsertChannel
      simp [mergeChannel_self]
    simp [h2]

/-- C8: `updateUsers` / `updateChannels` replace the in-memory collection
unconditionally and invoke the persistence `set` for the corresponding key
iff the entry count is at most 100; a 150-entry user collection is kept in
memory in full but never persisted. -/
theorem update_collections_persistence_cap (users : Users)
    (channels : List Channel) :
    (updateUsers users).1 = users ∧
    ((updateUsers users).2 = true ↔ (akeys users).length ≤ 100) ∧
    (updateChannels channels).1 = channels ∧
    ((updateChannels channels).2 = true ↔ channels.length ≤ 100) ∧
    (updateUsers (sampleUsers 150)).1 = sampleUsers 150 ∧
    (updateUsers (sampleUsers 150)).2 = false := by
  refine ⟨rfl, ?_, rfl, ?_, rfl, ?_⟩
  · simp [updateUsers, STORAGE_SIZE_LIMIT]
  · simp [updateChannels, STORAGE_SIZE_LIMIT]
  · simp [updateUsers, STORAGE_SIZE_LIMIT, sampleUsers, akeys]

/-- C9: merges whose target is missing are silently dropped, leaving the
message store unchanged: a reply whose parent timestamp is untracked, and
an add/remove-reaction whose channel id or message timestamp is
untracked. -/
theorem missing_reference_merges_are_noops (messages : Messages)
    (channelId : String) (parentTs msgTs : Nat) (reply : MessageReply)
    (userId reactionName : String) :
    (alookup parentTs ((alookup channelId messages).getD []) = none →
      updateMessageReply messages parentTs channelId reply = messages) ∧
    ((alookup channelId messages).bind (fun cm => alookup msgTs cm) = none →
      addReaction messages channelId msgTs userId reactionName = messages) ∧
    ((alookup channelId messages).bind (fun cm => alookup msgTs cm) = none →
      removeReaction messages channelId msgTs userId reactionName = messages) := by
  refine ⟨?_, ?_, ?_⟩
  · intro h
    simp only [updateMessageReply, h]
  · intro h
    unfold addReaction
    cases hc : alookup channelId messages with
    | none => rfl
    | some cm =>
      rw [hc] at h
      simp only [Option.some_bind] at h
      simp only [h]
  · intro h
    unfold removeReaction
    cases hc : alookup channelId messages with
    | none => rfl
    | some cm =>
      rw [hc] at h
      simp only [Option.some_bind] at h
      simp only [h]

/-- C9 (witness). -/
theorem missing_reference_merges_are_noops_witness :
    updateMessageReply [] 100 "C1" ⟨101, "U1", "hi"⟩ = [] ∧
    addReaction [] "C1" 100 "U1" "smile" = [] ∧
    removeReaction [] "C1" 100 "U1" "smile" = [] :=
  ⟨(missing_reference_merges_are_noops [] "C1" 100 100 ⟨101, "U1", "hi"⟩
      "U1" "smile").1 rfl,
   (missing_reference_merges_are_noops [] "C1" 100 100 ⟨101, "U1", "hi"⟩
      "U1" "smile").2.1 rfl,
   (missing_reference_merges_are_noops [] "C1" 100 100 ⟨101, "U1", "hi"⟩
      "U1" "smile").2.2 rfl⟩

/-- C4 (counterexample): `addReaction` immediately followed by
`removeReaction` with the same channel/timestamp/user/reaction-name does
not restore the pre-add state when the user id was already in the
reaction's membership list: the add appends a duplicate and the remove's
`filter(u => u !== userId)` strips both occurrences, leaving `userIds`
empty where it held the user once. -/
theorem add_remove_reaction_not_inverse :
    removeReaction (addReaction
        [("C1", [(100, ⟨"U2", "hi", [⟨"smile", ["U1"], 1⟩], []⟩)])]
        "C1" 100 "U1" "smile") "C1" 100 "U1" "smile" ≠
      [("C1", [(100, ⟨"U2", "hi", [⟨"smile", ["U1"], 1⟩], []⟩)])] := by
  decide

/-- C4 (amended): for a stored message, add-then-remove with the same
channel id, timestamp, user id and reaction name restores the message
(hence its reaction list) to its pre-add state, provided the user id was
not already in the same-named reaction's membership, every stored
reaction's count is positive, and reaction names are unique within the
message — the conditions under which the double-append/double-strip and
`count > 0` pruning cannot diverge. -/
theorem add_remove_reaction_restores (messages : Messages)
    (channelId : String) (msgTimestamp : Nat) (userId reactionName : String)
    (channelMessages : ChannelMessages) (message : Message)
    (hch : alookup channelId messages = some channelMessages)
    (hmsg : alookup msgTimestamp channelMessages = some message)
    (h1 : ∀ r ∈ message.reactions, 0 < r.count)
    (h2 : (message.reactions.map Reaction.name).Nodup)
    (h3 : ∀ r ∈ message.reactions, r.name = reactionName → userId ∉ r.userIds) :
    alookup msgTimestamp ((alookup channelId
        (removeReaction (addReaction messages channelId msgTimestamp userId
          reactionName) channelId msgTimestamp userId reactionName)).getD []) =
      some message := by
  have hadd : addReaction messages channelId msgTimestamp userId reactionName =
      updateMessages messages channelId [(msgTimestamp,
        some { message with
          reactions := addReactionList message.reactions userId reactionName })] := by
    simp only [addReaction, hch, hmsg]
  have hX1 := alookup_updateMessages messages channelId
    [(msgTimestamp, some { message with
      reactions := addReactionList message.reactions userId reactionName })]
    channelMessages hch
  have hts1 : alookup msgTimestamp (mergeChannelMessages channelMessages
      [(msgTimestamp, some { message with
        reactions := addReactionList message.reactions userId reactionName })]) =
      some { message with
        reactions := addReactionList message.reactions userId reactionName } :=
    @alookup_merge_of_defined channelMessages
      [(msgTimestamp, some { message with
        reactions := addReactionList message.reactions userId reactionName })]
      (by simp) msgTimestamp
      { message with
        reactions := addReactionList message.reactions userId reactionName }
      (by simp [alookup])
  have hrem : removeReactionList
      ({ message with
        reactions := addReactionList message.reactions userId
          reactionName } : Message).reactions userId reactionName =
      message.reactions :=
    remove_add_reactions message.reactions userId reactionName h1 h2 h3
  rw [hadd]
  have hstep : removeReaction (updateMessages messages channelId
      [(msgTimestamp, some { message with
        reactions := addReactionList message.reactions userId reactionName })])
      channelId msgTimestamp userId reactionName =
      updateMessages (updateMessages messages channelId
        [(msgTimestamp, some { message with
          reactions := addReactionList message.reactions userId reactionName })])
        channelId [(msgTimestamp, some message)] := by
    simp only [removeReaction, hX1, hts1, hrem]
  rw [hstep]
  have hX2 := alookup_updateMessages (updateMessages messages channelId
      [(msgTimestamp, some { message with
        reactions := addReactionList message.reactions userId reactionName })])
    channelId [(msgTimestamp, some message)]
    (mergeChannelMessages channelMessages
      [(msgTimestamp, some { message with
        reactions := addReactionList message.reactions userId reactionName })])
    hX1
  rw [hX2]
  simp only [Option.getD_some]
  exact @alookup_merge_of_defined
    (mergeChannelMessages channelMessages
      [(msgTimestamp, some { message with
        reactions := addReactionList message.reactions userId reactionName })])
    [(msgTimestamp, some message)] (by simp) msgTimestamp message
    (by simp [alookup])

/-- C4 (witness). -/
theorem add_remove_reaction_restores_witness :
    alookup 100 ((alookup "C1" (removeReaction (addReaction
        [("C1", [(100, ⟨"U2", "hi", [⟨"smile", ["U9"], 1⟩], []⟩)])]
        "C1" 100 "U1" "smile") "C1" 100 "U1" "smile")).getD []) =
      some ⟨"U2", "hi", [⟨"smile", ["U9"], 1⟩], []⟩ :=
  add_remove_reaction_restores
    [("C1", [(100, ⟨"U2", "hi", [⟨"smile", ["U9"], 1⟩], []⟩)])] "C1" 100 "U1"
    "smile" [(100, ⟨"U2", "hi", [⟨"smile", ["U9"], 1⟩], []⟩)]
    ⟨"U2", "hi", [⟨"smile", ["U9"], 1⟩], []⟩ (by decide) (by decide)
    (by decide) (by decide) (by decide)

end VSCodeChat
